import Mathlib

/-!
Shallow embedding of the quiz/to-do backend (services.py, models.py) of the
miniapp repository, together with proofs of the specified properties of its
answer-normalization, answer-matching, scoring, stats and task-completion
logic.

Strings are modelled as `List Char`; Python's `str.lower` is modelled by
`Char.toLower` (ASCII case mapping, which covers every character the answer
logic manipulates), and the regex character class `\s` by the ASCII whitespace
characters it matches.
-/

namespace Miniapp

/-- Characters matched by the regex class `\s` (ASCII): space, tab, newline,
carriage return, vertical tab, form feed. -/
def isPySpace (c : Char) : Bool :=
  c = ' ' || c = '\t' || c = '\n' || c = '\r' || c = '\x0b' || c = '\x0c'

/-- The `.replace(',', '.')` step of `_normalize_answer`, per character. -/
def commaToDot (c : Char) : Char :=
  if c = ',' then '.' else c

/-- Python's `str.strip()`: drop leading and trailing whitespace. -/
def pyStrip (l : List Char) : List Char :=
  ((l.dropWhile isPySpace).reverse.dropWhile isPySpace).reverse

/-- `_normalize_answer` from services.py:
`re.sub(r'\s+', '', s.lower()).replace(',', '.').strip()`, with the `None`
guard returning the empty string. Lowercase first, then delete every
whitespace character (removing each `\s+` run), then replace commas with
dots, then strip. -/
def normalize_answer (s : Option (List Char)) : List Char :=
  match s with
  | none => []
  | some l => pyStrip (((l.map Char.toLower).filter (fun c => !isPySpace c)).map commaToDot)

/-- The delimiter class `[;,]` used by `_answer_to_set` and by the branch
test `re.search(r'[;,]', correct_raw)` in `check_solution`. -/
def isDelim (c : Char) : Bool :=
  c = ';' || c = ','

/-- `re.split(r'[;,]', s)`: split at every single delimiter character,
keeping empty parts (as Python's `re.split` does for a single-char class). -/
def splitDelims : List Char → List (List Char)
  | [] => [[]]
  | c :: rest =>
    match splitDelims rest with
    | [] => [[]]
    | p :: ps => if isDelim c then [] :: p :: ps else (c :: p) :: ps

/-- `_answer_to_set` from services.py: split on `[;,]`, keep the raw
non-empty parts, normalize each, and collect the results as a set. -/
def answer_to_set (s : Option (List Char)) : Finset (List Char) :=
  match s with
  | none => ∅
  | some l =>
    (((splitDelims l).filter (fun p => p ≠ [])).map
      (fun p => normalize_answer (some p))).toFinset

/-- The answer comparison performed inside `check_solution` (services.py
lines 117–122): if the raw stored answer contains a `;` or `,`, compare the
two answer sets; otherwise compare the normalized scalars. -/
def matches_answer (userAnswer : Option (List Char)) (correctRaw : List Char) : Bool :=
  if correctRaw.any isDelim then
    decide (answer_to_set userAnswer = answer_to_set (some correctRaw))
  else
    decide (normalize_answer userAnswer = normalize_answer (some correctRaw))

/-- The Answer Normalizer as spec §4.1 words it, kept separate for the
refinement comparison with `normalize_answer`: absent input to the empty
string, remove all whitespace (internal included), lowercase, replace `,`
with `.`. -/
def spec_normalize_answer (s : Option (List Char)) : List Char :=
  match s with
  | none => []
  | some l => ((l.filter (fun c => !isPySpace c)).map Char.toLower).map commaToDot

/-- `models.Subject`: problem category enumeration. -/
inductive Subject where
  | math
  | informatics
deriving DecidableEq, Repr

/-- `models.Difficulty`: difficulty enumeration. -/
inductive Difficulty where
  | easy
  | medium
  | hard
deriving DecidableEq, Repr

/-- `models.User` (the columns the checked logic reads and writes). -/
structure UserRec where
  id : Nat
  score : Nat
  level : Nat
deriving DecidableEq, Repr

/-- `models.Problem`. -/
structure ProblemRec where
  id : Nat
  title : List Char
  description : List Char
  subject : Subject
  difficulty : Difficulty
  correct_answer : List Char
  points : Nat
deriving DecidableEq, Repr

/-- `models.UserSolution`: one append-only row per submission (the
`solved_at` timestamp is not modelled; no checked property reads it). -/
structure SolutionRec where
  user_id : Nat
  problem_id : Nat
  user_answer : Option (List Char)
  is_correct : Bool
deriving DecidableEq, Repr

/-- Modelled from the spec: the `Task` model referenced by
`services.complete_task` is absent from models.py; its fields (id, owning
user, title, boolean completed, creation timestamp) are taken from spec §3
and from the fields `complete_task` reads. The timestamp is not modelled. -/
structure TaskRec where
  id : Nat
  user_id : Nat
  title : List Char
  completed : Bool
deriving DecidableEq, Repr

/-- The persistent store the session queries run against. -/
structure DBState where
  users : List UserRec
  problems : List ProblemRec
  solutions : List SolutionRec
  tasks : List TaskRec
deriving DecidableEq, Repr

/-- `session.scalar(select(User).where(User.id == user_id))`: first user row
with the given primary key (unique in any real database state). -/
def find_user (db : DBState) (user_id : Nat) : Option UserRec :=
  db.users.find? (fun u => u.id == user_id)

/-- `session.scalar(select(Problem).where(Problem.id == problem_id))`. -/
def find_problem (db : DBState) (problem_id : Nat) : Option ProblemRec :=
  db.problems.find? (fun p => p.id == problem_id)

/-- `session.scalar(select(Task).where(Task.id == task_id))`. -/
def find_task (db : DBState) (task_id : Nat) : Option TaskRec :=
  db.tasks.find? (fun t => t.id == task_id)

/-- Python's `x or 0` applied to the non-nullable integer columns
(`user.score or 0`, `problem.points or 0`): the identity on naturals. -/
def orZero (n : Nat) : Nat :=
  if n == 0 then 0 else n

/-- Python's `user.level or 1`: falsy `0` is replaced by `1`. -/
def orOne (n : Nat) : Nat :=
  if n == 0 then 1 else n

/-- The error outcome of `check_solution` (the
`{'error': 'user or problem not found'}` return). -/
inductive CheckError where
  | notFound
deriving DecidableEq, Repr

/-- The success payload of `check_solution`. -/
structure CheckResult where
  correct : Bool
  correct_answer : Option (List Char)
  points_earned : Nat
  new_score : Nat
deriving DecidableEq, Repr

/-- `services.check_solution`: fetch problem and user; if either is missing
return the not-found error with the store untouched. Otherwise judge the
answer (set comparison when the raw stored answer contains `[;,]`, scalar
comparison otherwise), on a correct answer add the problem's points to the
user's score and recompute `level = score // 100 + 1`, always append the
solution row, and report the outcome. `correct_raw = problem.correct_answer
or ""` is the identity on strings and is kept implicit. -/
def check_solution (db : DBState) (user_id problem_id : Nat)
    (user_answer : Option (List Char)) :
    Except CheckError CheckResult × DBState :=
  match find_problem db problem_id, find_user db user_id with
  | some problem, some user =>
    let is_correct := matches_answer user_answer problem.correct_answer
    let solution : SolutionRec :=
      { user_id := user_id, problem_id := problem_id,
        user_answer := user_answer, is_correct := is_correct }
    let newScore := orZero user.score + orZero problem.points
    let users' :=
      if is_correct then
        db.users.map (fun u =>
          if u.id == user_id then
            { u with score := newScore, level := newScore / 100 + 1 }
          else u)
      else db.users
    let db' := { db with users := users', solutions := db.solutions ++ [solution] }
    (Except.ok
      { correct := is_correct,
        correct_answer := if is_correct then none else some problem.correct_answer,
        points_earned := if is_correct then problem.points else 0,
        new_score := if is_correct then newScore else user.score },
     db')
  | _, _ => (Except.error CheckError.notFound, db)

/-- The payload of `get_user_stats`. -/
structure StatsResult where
  score : Nat
  level : Nat
  solved_count : Nat
  math_solved : Nat
  informatics_solved : Nat
deriving DecidableEq, Repr

/-- The inner join of a solution row against the Problem table restricted
to one subject: `.join(Problem, Problem.id == UserSolution.problem_id)
.where(..., Problem.subject == subj)` (problem ids are primary keys, so the
join matches at most one row). -/
def joinedSubject (db : DBState) (s : SolutionRec) (subj : Subject) : Bool :=
  match find_problem db s.problem_id with
  | some p => p.subject == subj
  | none => false

/-- `services.get_user_stats`: `None` when the user id does not resolve;
otherwise the user's score (`or 0`) and level (`or 1`) and the three
correct-submission counts, each `or 0`. -/
def get_user_stats (db : DBState) (user_id : Nat) : Option StatsResult :=
  match find_user db user_id with
  | none => none
  | some user =>
    some
      { score := orZero user.score,
        level := orOne user.level,
        solved_count :=
          orZero (db.solutions.filter
            (fun s => s.user_id == user_id && s.is_correct)).length,
        math_solved :=
          orZero (db.solutions.filter
            (fun s => s.user_id == user_id && s.is_correct &&
              joinedSubject db s Subject.math)).length,
        informatics_solved :=
          orZero (db.solutions.filter
            (fun s => s.user_id == user_id && s.is_correct &&
              joinedSubject db s Subject.informatics)).length }

/-- `Subject(value)` on a string: `ValueError` (here `none`) for any value
that is not a member of the enumeration. -/
def parseSubject (s : List Char) : Option Subject :=
  if s = "math".toList then some Subject.math
  else if s = "informatics".toList then some Subject.informatics
  else none

/-- `Difficulty(value)` on a string. -/
def parseDifficulty (s : List Char) : Option Difficulty :=
  if s = "easy".toList then some Difficulty.easy
  else if s = "medium".toList then some Difficulty.medium
  else if s = "hard".toList then some Difficulty.hard
  else none

/-- One `subject`/`difficulty` filter dimension of `services.get_problems`:
skipped when the argument is absent or falsy (empty string), applied when
the value parses, and silently dropped (`except Exception: pass`) when it
does not. -/
def filterDim {α : Type} [BEq α] (arg : Option (List Char))
    (parse : List Char → Option α) (field : ProblemRec → α)
    (p : ProblemRec) : Bool :=
  match arg with
  | none => true
  | some s =>
    if s = [] then true
    else
      match parse s with
      | none => true
      | some v => field p == v

/-- The projection built by the list comprehension in
`services.get_problems`. -/
structure ProblemSummary where
  id : Nat
  title : List Char
  description : List Char
  subject : Subject
  difficulty : Difficulty
  points : Nat
deriving DecidableEq, Repr

/-- `services.get_problems`: select problems, applying each of the two
optional filters independently and leniently, and project each row. -/
def get_problems (db : DBState) (subject difficulty : Option (List Char)) :
    List ProblemSummary :=
  ((db.problems.filter (fun p => filterDim subject parseSubject ProblemRec.subject p)).filter
      (fun p => filterDim difficulty parseDifficulty ProblemRec.difficulty p)).map
    (fun p =>
      { id := p.id, title := p.title, description := p.description,
        subject := p.subject, difficulty := p.difficulty, points := p.points })

/-- The payload of `complete_task`. -/
structure TaskOut where
  id : Nat
  title : List Char
  completed : Bool
deriving DecidableEq, Repr

/-- `services.complete_task`: `None` when the task id does not resolve
(store untouched); otherwise set `completed = True` on that row, commit,
and return the task's id, title and completed flag. -/
def complete_task (db : DBState) (task_id : Nat) : Option TaskOut × DBState :=
  match find_task db task_id with
  | none => (none, db)
  | some t =>
    let tasks' := db.tasks.map (fun x =>
      if x.id == task_id then { x with completed := true } else x)
    (some { id := t.id, title := t.title, completed := true },
     { db with tasks := tasks' })

instance {ε α : Type} [DecidableEq ε] [DecidableEq α] : DecidableEq (Except ε α)
  | Except.error e, Except.error f =>
    if h : e = f then Decidable.isTrue (congrArg Except.error h)
    else Decidable.isFalse (fun hh => h (Except.error.inj hh))
  | Except.error _, Except.ok _ => Decidable.isFalse (fun hh => Except.noConfusion hh)
  | Except.ok _, Except.error _ => Decidable.isFalse (fun hh => Except.noConfusion hh)
  | Except.ok a, Except.ok b =>
    if h : a = b then Decidable.isTrue (congrArg Except.ok h)
    else Decidable.isFalse (fun hh => h (Except.ok.inj hh))

/-! ### Concrete fixtures used by the witness theorems -/

/-- A user one correct cheap answer away from the level boundary. -/
def wUser99 : UserRec := { id := 1, score := 99, level := 1 }

/-- A one-point problem with scalar answer `"42"`. -/
def wProblem1 : ProblemRec :=
  { id := 1, title := "p1".toList, description := "d1".toList,
    subject := Subject.math, difficulty := Difficulty.easy,
    correct_answer := "42".toList, points := 1 }

/-- A store holding just `wUser99` and `wProblem1`. -/
def wDb99 : DBState :=
  { users := [wUser99], problems := [wProblem1], solutions := [], tasks := [] }

/-- The result of the correct submission `"42"` against `wDb99`. -/
def wRes99 : CheckResult :=
  { correct := true, correct_answer := none, points_earned := 1, new_score := 100 }

/-- The store after that correct submission: score 100, level 2, one
solution row appended. -/
def wDb99' : DBState :=
  { users := [{ id := 1, score := 100, level := 2 }],
    problems := [wProblem1],
    solutions := [{ user_id := 1, problem_id := 1,
                    user_answer := some "42".toList, is_correct := true }],
    tasks := [] }

/-- The result of the incorrect submission `"7"` against `wDb99`. -/
def wRes7 : CheckResult :=
  { correct := false, correct_answer := some "42".toList,
    points_earned := 0, new_score := 99 }

/-- The store after that incorrect submission: users untouched, one
solution row appended. -/
def wDb7' : DBState :=
  { users := [wUser99], problems := [wProblem1],
    solutions := [{ user_id := 1, problem_id := 1,
                    user_answer := some "7".toList, is_correct := false }],
    tasks := [] }

/-- The empty store. -/
def wDbEmpty : DBState := { users := [], problems := [], solutions := [], tasks := [] }

/-- A second problem, informatics/medium, for the catalog and stats
fixtures. -/
def wProblem2 : ProblemRec :=
  { id := 2, title := "p2".toList, description := "d2".toList,
    subject := Subject.informatics, difficulty := Difficulty.medium,
    correct_answer := "o(log n)".toList, points := 20 }

/-- A catalog store holding two problems of different subjects and
difficulties. -/
def wDbCat : DBState :=
  { users := [], problems := [wProblem1, wProblem2], solutions := [], tasks := [] }

/-- A stats store: one user with four attempts (two correct on the math
problem, one incorrect and one correct on the informatics problem) and one
attempt by another user. -/
def wDbStats : DBState :=
  { users := [wUser99, { id := 2, score := 0, level := 1 }],
    problems := [wProblem1, wProblem2],
    solutions :=
      [{ user_id := 1, problem_id := 1, user_answer := some "42".toList, is_correct := true },
       { user_id := 1, problem_id := 1, user_answer := some "42".toList, is_correct := true },
       { user_id := 1, problem_id := 2, user_answer := some "no".toList, is_correct := false },
       { user_id := 1, problem_id := 2, user_answer := some "o(log n)".toList, is_correct := true },
       { user_id := 2, problem_id := 1, user_answer := some "42".toList, is_correct := true }],
    tasks := [] }

/-- A task store with one open and one completed task. -/
def wDbTasks : DBState :=
  { users := [wUser99], problems := [], solutions := [],
    tasks := [{ id := 1, user_id := 1, title := "t1".toList, completed := false },
              { id := 2, user_id := 1, title := "t2".toList, completed := true }] }

/-! ### Character-level facts about the normalizer's building blocks -/

theorem char_toNat_ofNat_valid (n : Nat) (h : n.isValidChar) :
    (Char.ofNat n).toNat = n := by
  simp [Char.ofNat, dif_pos h, Char.ofNatAux, Char.toNat, UInt32.toNat]

theorem char_eq_iff_toNat {c d : Char} : c = d ↔ c.toNat = d.toNat := by
  constructor
  · intro h; rw [h]
  · intro h
    exact Char.eq_of_val_eq (UInt32.toNat.inj h)

theorem char_ne_of_toNat_ne {c d : Char} (h : c.toNat ≠ d.toNat) : c ≠ d :=
  fun he => h (by rw [he])

theorem toLower_toNat (c : Char) :
    (Char.toLower c).toNat =
      if 65 ≤ c.toNat ∧ c.toNat ≤ 90 then c.toNat + 32 else c.toNat := by
  unfold Char.toLower
  by_cases h : 65 ≤ c.toNat ∧ c.toNat ≤ 90
  · rw [if_pos ⟨h.1, h.2⟩, if_pos h]
    apply char_toNat_ofNat_valid
    left
    omega
  · rw [if_neg (fun hc => h ⟨hc.1, hc.2⟩), if_neg h]

theorem toLower_idem (c : Char) : c.toLower.toLower = c.toLower := by
  rw [char_eq_iff_toNat, toLower_toNat c.toLower, toLower_toNat c]
  split_ifs <;> omega

theorem isPySpace_eq_false_of_toNat {c : Char} (h : 33 ≤ c.toNat) :
    isPySpace c = false := by
  have e1 : (' ' : Char).toNat = 32 := by decide
  have e2 : ('\t' : Char).toNat = 9 := by decide
  have e3 : ('\n' : Char).toNat = 10 := by decide
  have e4 : ('\r' : Char).toNat = 13 := by decide
  have e5 : ('\x0b' : Char).toNat = 11 := by decide
  have e6 : ('\x0c' : Char).toNat = 12 := by decide
  have h1 : c ≠ ' ' := char_ne_of_toNat_ne (by omega)
  have h2 : c ≠ '\t' := char_ne_of_toNat_ne (by omega)
  have h3 : c ≠ '\n' := char_ne_of_toNat_ne (by omega)
  have h4 : c ≠ '\r' := char_ne_of_toNat_ne (by omega)
  have h5 : c ≠ '\x0b' := char_ne_of_toNat_ne (by omega)
  have h6 : c ≠ '\x0c' := char_ne_of_toNat_ne (by omega)
  simp [isPySpace, h1, h2, h3, h4, h5, h6]

theorem toLower_eq_self_of_not_upper {c : Char}
    (h : ¬(65 ≤ c.toNat ∧ c.toNat ≤ 90)) : c.toLower = c := by
  rw [char_eq_iff_toNat, toLower_toNat, if_neg h]

theorem isPySpace_toLower (c : Char) : isPySpace c.toLower = isPySpace c := by
  by_cases h : 65 ≤ c.toNat ∧ c.toNat ≤ 90
  · have h1 : c.toLower.toNat = c.toNat + 32 := by rw [toLower_toNat, if_pos h]
    rw [isPySpace_eq_false_of_toNat (by omega),
      isPySpace_eq_false_of_toNat (c := c) (by omega)]
  · rw [toLower_eq_self_of_not_upper h]

theorem commaToDot_ne_comma (c : Char) : commaToDot c ≠ ',' := by
  unfold commaToDot
  split_ifs with h
  · decide
  · exact h

theorem commaToDot_eq_self {c : Char} (h : c ≠ ',') : commaToDot c = c :=
  if_neg h

theorem isPySpace_commaToDot (c : Char) :
    isPySpace (commaToDot c) = isPySpace c := by
  unfold commaToDot
  split_ifs with h
  · subst h; decide
  · rfl

theorem toLower_commaToDot_fixed {c : Char} (h : c.toLower = c) :
    (commaToDot c).toLower = commaToDot c := by
  unfold commaToDot
  split_ifs with hc
  · decide
  · exact h

/-! ### List-level facts -/

theorem dropWhile_eq_self_of {p : Char → Bool} {l : List Char}
    (h : ∀ c ∈ l, p c = false) : l.dropWhile p = l := by
  induction l with
  | nil => rfl
  | cons a l ih =>
    rw [List.dropWhile_cons, h a (List.mem_cons_self a l)]
    simp

theorem pyStrip_eq_self {l : List Char}
    (h : ∀ c ∈ l, isPySpace c = false) : pyStrip l = l := by
  unfold pyStrip
  rw [dropWhile_eq_self_of h,
    dropWhile_eq_self_of (fun c hc => h c (List.mem_reverse.mp hc)),
    List.reverse_reverse]

/-- Every character of the (unstripped) body of `normalize_answer` is
lowercase-fixed, not whitespace, and not a comma. -/
theorem normalize_body_chars (s : List Char) :
    ∀ c ∈ ((s.map Char.toLower).filter (fun c => !isPySpace c)).map commaToDot,
      c.toLower = c ∧ isPySpace c = false ∧ c ≠ ',' := by
  intro c hc
  rcases List.mem_map.mp hc with ⟨d, hd, rfl⟩
  rcases List.mem_filter.mp hd with ⟨hd1, hd2⟩
  rcases List.mem_map.mp hd1 with ⟨e, _, rfl⟩
  have hspace : isPySpace e.toLower = false := by
    simpa using hd2
  refine ⟨toLower_commaToDot_fixed (toLower_idem e), ?_, commaToDot_ne_comma _⟩
  rw [isPySpace_commaToDot]
  exact hspace

/-- The trailing `.strip()` in `_normalize_answer` is a no-op: the
whitespace-removal step already left nothing to strip. -/
theorem normalize_answer_some (s : List Char) :
    normalize_answer (some s) =
      ((s.map Char.toLower).filter (fun c => !isPySpace c)).map commaToDot := by
  unfold normalize_answer
  exact pyStrip_eq_self (fun c hc => (normalize_body_chars s c hc).2.1)

theorem normalize_answer_chars (s : List Char) :
    ∀ c ∈ normalize_answer (some s),
      c.toLower = c ∧ isPySpace c = false ∧ c ≠ ',' := by
  rw [normalize_answer_some]
  exact normalize_body_chars s

/-! ### Claim theorems: normalizer and matcher -/

/-- C9: the answer normalizer is idempotent — for every string `s`,
`normalize(normalize(s)) = normalize(s)`. -/
theorem normalize_answer_idempotent (s : List Char) :
    normalize_answer (some (normalize_answer (some s))) = normalize_answer (some s) := by
  have hchars := normalize_answer_chars s
  set t := normalize_answer (some s) with ht
  rw [normalize_answer_some t]
  have h1 : t.map Char.toLower = t := by
    rw [show t.map Char.toLower = t.map id from
      List.map_congr_left (fun a ha => (hchars a ha).1), List.map_id]
  have h2 : t.filter (fun c => !isPySpace c) = t :=
    List.filter_eq_self.mpr (fun a ha => by rw [(hchars a ha).2.1]; rfl)
  have h3 : t.map commaToDot = t := by
    rw [show t.map commaToDot = t.map id from
      List.map_congr_left (fun a ha => commaToDot_eq_self (hchars a ha).2.2),
      List.map_id]
  rw [h1, h2, h3]

/-- C4: the answer normalizer is total, maps absent input to the empty
string, removes every whitespace character (internal runs included),
lowercases and replaces `,` with `.` — i.e. it coincides with the spec's
wording of the transformation — and consequently
`matches(" O(Log N) ", "o(log n)")` is true. -/
theorem normalize_answer_matches_spec :
    (∀ s, normalize_answer s = spec_normalize_answer s) ∧
    matches_answer (some " O(Log N) ".toList) "o(log n)".toList = true := by
  constructor
  · intro s
    match s with
    | none => rfl
    | some l =>
      rw [normalize_answer_some]
      show _ = ((l.filter fun c => !isPySpace c).map Char.toLower).map commaToDot
      congr 1
      rw [List.filter_map]
      congr 1
      apply List.filter_congr
      intro a _
      show (!isPySpace a.toLower) = !isPySpace a
      rw [isPySpace_toLower]
  · decide

/-- C1: when the stored correct answer contains a `;` or `,` delimiter, the
matcher judges the submission correct exactly when the two answer sets
(split on `[;,]`, non-empty parts normalized) are equal; in particular
`matches("2;3", "3;2")` is true and `matches("2", "2;3")` is false. -/
theorem matches_answer_set_equality (ua corr : List Char)
    (h : corr.any isDelim = true) :
    (matches_answer (some ua) corr = true ↔
      answer_to_set (some ua) = answer_to_set (some corr)) ∧
    matches_answer (some "2;3".toList) "3;2".toList = true ∧
    matches_answer (some "2".toList) "2;3".toList = false := by
  refine ⟨?_, by decide, by decide⟩
  simp [matches_answer, h]

/-- Witness for C1 at the concrete pair `("2;3", "3;2")`. -/
theorem matches_answer_set_equality_witness :
    "3;2".toList.any isDelim = true ∧
    ((matches_answer (some "2;3".toList) "3;2".toList = true ↔
        answer_to_set (some "2;3".toList) = answer_to_set (some "3;2".toList)) ∧
      matches_answer (some "2;3".toList) "3;2".toList = true ∧
      matches_answer (some "2".toList) "2;3".toList = false) :=
  ⟨by decide, matches_answer_set_equality "2;3".toList "3;2".toList (by decide)⟩

/-- C10 counterexample: contrary to the claim, a submission `"2,5"` DOES
match a stored `"2,5"` — both sides are split on the comma and the two
resulting sets `{"2","5"}` are equal. -/
theorem matcher_comma_claim_counterexample :
    matches_answer (some "2,5".toList) "2,5".toList = true := by decide

/-- C10 (amended): the branch is decided by the raw stored answer alone, so
a stored decimal-comma scalar `"2,5"` is treated as the set `{"2","5"}`; a
submission `"2.5"` does not match it, while a submission `"2,5"` (split the
same way) does; in the scalar branch the comma-to-dot replacement applies to
the submission, so `"2,5"` against a stored `"2.5"` matches. -/
theorem matcher_comma_branching :
    answer_to_set (some "2,5".toList) = {"2".toList, "5".toList} ∧
    matches_answer (some "2.5".toList) "2,5".toList = false ∧
    matches_answer (some "2,5".toList) "2,5".toList = true ∧
    matches_answer (some "2,5".toList) "2.5".toList = true := by
  refine ⟨?_, by decide, by decide, by decide⟩
  decide

/-! ### Facts about the store operations -/

theorem orZero_eq (n : Nat) : orZero n = n := by
  unfold orZero
  split <;> simp_all

theorem find?_update_by_id {α : Type} (l : List α) (idOf : α → Nat) (n : Nat)
    (f : α → α) (hf : ∀ a, idOf (f a) = idOf a) :
    (l.map (fun a => if idOf a == n then f a else a)).find? (fun a => idOf a == n) =
      (l.find? (fun a => idOf a == n)).map
        (fun a => if idOf a == n then f a else a) := by
  rw [List.find?_map]
  have hcomp : ((fun a => idOf a == n) ∘ fun a => if idOf a == n then f a else a) =
      fun a => idOf a == n := by
    funext a
    by_cases h : (idOf a == n) = true
    · simp [Function.comp, h, hf]
    · simp [Function.comp, h]
  rw [hcomp]

/-- The evaluation of `check_solution` when both the problem and the user
resolve, with every `let` of the source spelled out. -/
theorem check_solution_eq_of_found
    (db : DBState) (uid pid : Nat) (ua : Option (List Char))
    (u : UserRec) (p : ProblemRec)
    (hu : find_user db uid = some u) (hp : find_problem db pid = some p) :
    check_solution db uid pid ua =
      (Except.ok
        { correct := matches_answer ua p.correct_answer,
          correct_answer :=
            if matches_answer ua p.correct_answer then none
            else some p.correct_answer,
          points_earned :=
            if matches_answer ua p.correct_answer then p.points else 0,
          new_score :=
            if matches_answer ua p.correct_answer then
              orZero u.score + orZero p.points
            else u.score },
       { db with
          users :=
            if matches_answer ua p.correct_answer then
              db.users.map (fun x =>
                if x.id == uid then
                  { x with score := orZero u.score + orZero p.points,
                           level := (orZero u.score + orZero p.points) / 100 + 1 }
                else x)
            else db.users,
          solutions := db.solutions ++
            [{ user_id := uid, problem_id := pid, user_answer := ua,
               is_correct := matches_answer ua p.correct_answer }] }) := by
  unfold check_solution
  rw [hp, hu]

/-! ### Claim theorems: scoring engine -/

/-- C2: when a submission is judged correct, the engine reports
`new_score = user.score + problem.points`, and persists that score together
with `level = new_score / 100 + 1`; the final conjunct instantiates the
boundary case of the claim — a score-99 user solving a 1-point problem ends
persisted at score 100, level 2. -/
theorem check_solution_correct_scoring
    (db : DBState) (uid pid : Nat) (ua : Option (List Char))
    (u : UserRec) (p : ProblemRec) (res : CheckResult) (db' : DBState)
    (hu : find_user db uid = some u) (hp : find_problem db pid = some p)
    (hres : check_solution db uid pid ua = (Except.ok res, db'))
    (hc : res.correct = true) :
    res.new_score = u.score + p.points ∧
    find_user db' uid =
      some { u with score := u.score + p.points,
                    level := (u.score + p.points) / 100 + 1 } ∧
    find_user (check_solution wDb99 1 1 (some "42".toList)).2 1 =
      some { id := 1, score := 100, level := 2 } := by
  rw [check_solution_eq_of_found db uid pid ua u p hu hp] at hres
  injection hres with hA hB
  injection hA with hA
  subst hA
  subst hB
  have hm : matches_answer ua p.correct_answer = true := hc
  refine ⟨?_, ?_, by decide⟩
  · show (if matches_answer ua p.correct_answer then
        orZero u.score + orZero p.points else u.score) = u.score + p.points
    rw [hm, if_pos rfl, orZero_eq, orZero_eq]
  · show List.find? (fun x => x.id == uid)
        (if matches_answer ua p.correct_answer then
          db.users.map (fun x =>
            if x.id == uid then
              { x with score := orZero u.score + orZero p.points,
                       level := (orZero u.score + orZero p.points) / 100 + 1 }
            else x)
        else db.users) = _
    rw [hm, if_pos rfl,
      find?_update_by_id db.users UserRec.id uid
        (fun x => { x with score := orZero u.score + orZero p.points,
                           level := (orZero u.score + orZero p.points) / 100 + 1 })
        (fun _ => rfl)]
    have hfind : List.find? (fun x => x.id == uid) db.users = some u := hu
    rw [hfind]
    have hid := List.find?_some hfind
    show some (if u.id == uid then
        { u with score := orZero u.score + orZero p.points,
                 level := (orZero u.score + orZero p.points) / 100 + 1 }
      else u) = _
    rw [if_pos hid, orZero_eq, orZero_eq]

/-- Witness for C2 at the boundary scenario: user at score 99, 1-point
problem, correct answer `"42"`. -/
theorem check_solution_correct_scoring_witness :
    find_user wDb99 1 = some wUser99 ∧
    find_problem wDb99 1 = some wProblem1 ∧
    check_solution wDb99 1 1 (some "42".toList) = (Except.ok wRes99, wDb99') ∧
    wRes99.correct = true ∧
    (wRes99.new_score = wUser99.score + wProblem1.points ∧
      find_user wDb99' 1 =
        some { wUser99 with score := wUser99.score + wProblem1.points,
                            level := (wUser99.score + wProblem1.points) / 100 + 1 } ∧
      find_user (check_solution wDb99 1 1 (some "42".toList)).2 1 =
        some { id := 1, score := 100, level := 2 }) :=
  ⟨by decide, by decide, by decide, by decide,
    check_solution_correct_scoring wDb99 1 1 (some "42".toList) wUser99 wProblem1
      wRes99 wDb99' (by decide) (by decide) (by decide) (by decide)⟩

/-- C3: on every successful `check_solution` call, if the submission is
judged incorrect the user table (hence score and level) is unchanged and the
response carries the stored correct answer verbatim; if it is judged
correct, the response's `correct_answer` field is `none`. -/
theorem check_solution_incorrect_frame
    (db : DBState) (uid pid : Nat) (ua : Option (List Char))
    (u : UserRec) (p : ProblemRec) (res : CheckResult) (db' : DBState)
    (hu : find_user db uid = some u) (hp : find_problem db pid = some p)
    (hres : check_solution db uid pid ua = (Except.ok res, db')) :
    (res.correct = false →
      db'.users = db.users ∧ res.correct_answer = some p.correct_answer) ∧
    (res.correct = true → res.correct_answer = none) := by
  rw [check_solution_eq_of_found db uid pid ua u p hu hp] at hres
  injection hres with hA hB
  injection hA with hA
  subst hA
  subst hB
  constructor
  · intro hc
    have hm : matches_answer ua p.correct_answer = false := hc
    constructor
    · show (if matches_answer ua p.correct_answer then _ else db.users) = db.users
      rw [hm]
      rfl
    · show (if matches_answer ua p.correct_answer then none
          else some p.correct_answer) = some p.correct_answer
      rw [hm]
      rfl
  · intro hc
    have hm : matches_answer ua p.correct_answer = true := hc
    show (if matches_answer ua p.correct_answer then none
        else some p.correct_answer) = none
    rw [hm]
    rfl

/-- Witness for C3 at the incorrect submission `"7"` against stored
`"42"`. -/
theorem check_solution_incorrect_frame_witness :
    find_user wDb99 1 = some wUser99 ∧
    find_problem wDb99 1 = some wProblem1 ∧
    check_solution wDb99 1 1 (some "7".toList) = (Except.ok wRes7, wDb7') ∧
    ((wRes7.correct = false →
        wDb7'.users = wDb99.users ∧
        wRes7.correct_answer = some wProblem1.correct_answer) ∧
      (wRes7.correct = true → wRes7.correct_answer = none)) :=
  ⟨by decide, by decide, by decide,
    check_solution_incorrect_frame wDb99 1 1 (some "7".toList) wUser99 wProblem1
      wRes7 wDb7' (by decide) (by decide) (by decide)⟩

/-- C5: when either the user id or the problem id does not resolve,
`check_solution` fails with the not-found error and returns the store
unchanged — in particular no solution-attempt row is appended. -/
theorem check_solution_not_found
    (db : DBState) (uid pid : Nat) (ua : Option (List Char))
    (h : find_user db uid = none ∨ find_problem db pid = none) :
    check_solution db uid pid ua = (Except.error CheckError.notFound, db) := by
  unfold check_solution
  rcases h with h | h
  · rw [h]
    cases find_problem db pid <;> rfl
  · rw [h]

/-- Witness for C5: the empty store resolves neither id 1 nor id 1. -/
theorem check_solution_not_found_witness :
    (find_user wDbEmpty 1 = none ∨ find_problem wDbEmpty 1 = none) ∧
    check_solution wDbEmpty 1 1 (some "42".toList) =
      (Except.error CheckError.notFound, wDbEmpty) :=
  ⟨Or.inl (by decide),
    check_solution_not_found wDbEmpty 1 1 (some "42".toList) (Or.inl (by decide))⟩

/-! ### Claim theorems: task ledger -/

/-- C8: `complete_task` is idempotent — the second call on any store returns
the same payload and leaves the store unchanged; on an existing task it
returns the task with `completed = true` (and `none` exactly for an
unresolved id, with the store untouched); and the transition is one-way:
every task row keeps its id and title, and its completed flag is the old
flag or-ed with the id match, never un-completed. -/
theorem complete_task_idempotent (db : DBState) (tid : Nat) :
    complete_task (complete_task db tid).2 tid = complete_task db tid ∧
    (complete_task db tid).1 =
      (find_task db tid).map
        (fun t => { id := t.id, title := t.title, completed := true }) ∧
    (find_task db tid = none → (complete_task db tid).2 = db) ∧
    List.Forall₂ (fun a b => b.id = a.id ∧ b.title = a.title ∧
        b.completed = (a.completed || a.id == tid))
      db.tasks (complete_task db tid).2.tasks := by
  cases h : find_task db tid with
  | none =>
    have hnone := List.find?_eq_none.mp h
    have e : complete_task db tid = (none, db) := by
      unfold complete_task
      rw [h]
    rw [e]
    refine ⟨e, rfl, fun _ => rfl, ?_⟩
    refine List.forall₂_same.mpr (fun x hx => ⟨rfl, rfl, ?_⟩)
    have : (x.id == tid) = false := by
      have := hnone x hx
      simp at this
      simp [this]
    rw [this, Bool.or_false]
  | some t =>
    have hid := List.find?_some h
    have e : complete_task db tid =
        (some { id := t.id, title := t.title, completed := true },
         { db with tasks := db.tasks.map (fun x =>
             if x.id == tid then { x with completed := true } else x) }) := by
      unfold complete_task
      rw [h]
    rw [e]
    have hfind1 : find_task
        { db with tasks := db.tasks.map (fun x =>
            if x.id == tid then { x with completed := true } else x) } tid =
        some { t with completed := true } := by
      show List.find? (fun x => x.id == tid)
          (db.tasks.map (fun x =>
            if x.id == tid then { x with completed := true } else x)) = _
      rw [find?_update_by_id db.tasks TaskRec.id tid
        (fun x => { x with completed := true }) (fun _ => rfl)]
      have hf : List.find? (fun x => x.id == tid) db.tasks = some t := h
      rw [hf]
      show some (if t.id == tid then { t with completed := true } else t) = _
      rw [if_pos hid]
    refine ⟨?_, rfl, fun hn => Option.noConfusion hn, ?_⟩
    · unfold complete_task
      rw [hfind1]
      have hmap : (db.tasks.map (fun x =>
            if x.id == tid then { x with completed := true } else x)).map
            (fun x => if x.id == tid then { x with completed := true } else x) =
          db.tasks.map (fun x =>
            if x.id == tid then { x with completed := true } else x) := by
        rw [List.map_map]
        apply List.map_congr_left
        intro x _
        by_cases hx : (x.id == tid) = true
        · simp [Function.comp, hx]
        · simp [Function.comp, hx]
      rw [hmap]
    · refine List.forall₂_map_right_iff.mpr
        (List.forall₂_same.mpr (fun x _ => ?_))
      by_cases hx : (x.id == tid) = true
      · rw [if_pos hx, hx, Bool.or_true]
        exact ⟨rfl, rfl, rfl⟩
      · rw [if_neg hx]
        have : (x.id == tid) = false := by
          cases hb : (x.id == tid)
          · rfl
          · exact absurd hb hx
        rw [this, Bool.or_false]
        exact ⟨rfl, rfl, rfl⟩

/-- Witness for C8 at a store with one open and one completed task. -/
theorem complete_task_idempotent_witness :
    complete_task (complete_task wDbTasks 1).2 1 = complete_task wDbTasks 1 ∧
    (complete_task wDbTasks 1).1 =
      (find_task wDbTasks 1).map
        (fun t => { id := t.id, title := t.title, completed := true }) ∧
    (find_task wDbTasks 1 = none → (complete_task wDbTasks 1).2 = wDbTasks) ∧
    List.Forall₂ (fun a b => b.id = a.id ∧ b.title = a.title ∧
        b.completed = (a.completed || a.id == 1))
      wDbTasks.tasks (complete_task wDbTasks 1).2.tasks :=
  complete_task_idempotent wDbTasks 1

/-! ### Claim theorems: problem catalog -/

theorem filterDim_of_parse_none {α : Type} [BEq α] (s : List Char)
    (parse : List Char → Option α) (field : ProblemRec → α)
    (h : parse s = none) (p : ProblemRec) :
    filterDim (some s) parse field p = true := by
  show (if s = [] then true
    else match parse s with
      | none => true
      | some v => field p == v) = true
  split_ifs with h1
  · rfl
  · rw [h]

theorem filterDim_of_parse_some {α : Type} [BEq α] (s : List Char)
    (parse : List Char → Option α) (field : ProblemRec → α) (v : α)
    (h : parse s = some v) (hne : s ≠ []) (p : ProblemRec) :
    filterDim (some s) parse field p = (field p == v) := by
  show (if s = [] then true
    else match parse s with
      | none => true
      | some w => field p == w) = (field p == v)
  rw [if_neg hne, h]

/-- C7: the two listing filters are optional and independent; an
unrecognized subject or difficulty value falls back to unfiltered on that
dimension instead of raising, while recognized values of both filters apply
conjunctively. -/
theorem get_problems_lenient
    (db : DBState) (sBad dBad sOk dOk : List Char) (subj : Subject)
    (diff : Difficulty) (so dopt : Option (List Char))
    (h1 : parseSubject sBad = none) (h2 : parseDifficulty dBad = none)
    (h3 : parseSubject sOk = some subj) (h4 : parseDifficulty dOk = some diff) :
    get_problems db (some sBad) dopt = get_problems db none dopt ∧
    get_problems db so (some dBad) = get_problems db so none ∧
    get_problems db (some sOk) (some dOk) =
      (db.problems.filter
        (fun p => p.subject == subj && p.difficulty == diff)).map
        (fun p => { id := p.id, title := p.title, description := p.description,
                    subject := p.subject, difficulty := p.difficulty,
                    points := p.points }) := by
  have hsne : sOk ≠ [] := by
    intro he
    rw [he, show parseSubject [] = none from by decide] at h3
    exact Option.noConfusion h3
  have hdne : dOk ≠ [] := by
    intro he
    rw [he, show parseDifficulty [] = none from by decide] at h4
    exact Option.noConfusion h4
  refine ⟨?_, ?_, ?_⟩
  · have e1 : db.problems.filter
        (fun p => filterDim (some sBad) parseSubject ProblemRec.subject p) =
        db.problems.filter
          (fun p => filterDim none parseSubject ProblemRec.subject p) :=
      List.filter_congr (fun p _ => by
        rw [filterDim_of_parse_none sBad parseSubject ProblemRec.subject h1 p]
        rfl)
    unfold get_problems
    rw [e1]
  · have e2 : (db.problems.filter
          (fun p => filterDim so parseSubject ProblemRec.subject p)).filter
        (fun p => filterDim (some dBad) parseDifficulty ProblemRec.difficulty p) =
        (db.problems.filter
          (fun p => filterDim so parseSubject ProblemRec.subject p)).filter
          (fun p => filterDim none parseDifficulty ProblemRec.difficulty p) :=
      List.filter_congr (fun p _ => by
        rw [filterDim_of_parse_none dBad parseDifficulty ProblemRec.difficulty h2 p]
        rfl)
    unfold get_problems
    rw [e2]
  · have e1 : db.problems.filter
        (fun p => filterDim (some sOk) parseSubject ProblemRec.subject p) =
        db.problems.filter (fun p => p.subject == subj) :=
      List.filter_congr (fun p _ => by
        rw [filterDim_of_parse_some sOk parseSubject ProblemRec.subject subj h3 hsne p])
    have e2 : (db.problems.filter (fun p => p.subject == subj)).filter
        (fun p => filterDim (some dOk) parseDifficulty ProblemRec.difficulty p) =
        (db.problems.filter (fun p => p.subject == subj)).filter
          (fun p => p.difficulty == diff) :=
      List.filter_congr (fun p _ => by
        rw [filterDim_of_parse_some dOk parseDifficulty ProblemRec.difficulty diff h4 hdne p])
    unfold get_problems
    rw [e1, e2, List.filter_filter]
    congr 1
    exact List.filter_congr (fun p _ => Bool.and_comm _ _)

/-- Witness for C7: `"chemistry"` and `"extreme"` are unrecognized,
`"math"`/`"easy"` are recognized, over the two-problem catalog. -/
theorem get_problems_lenient_witness :
    parseSubject "chemistry".toList = none ∧
    parseDifficulty "extreme".toList = none ∧
    parseSubject "math".toList = some Subject.math ∧
    parseDifficulty "easy".toList = some Difficulty.easy ∧
    (get_problems wDbCat (some "chemistry".toList) none =
        get_problems wDbCat none none ∧
      get_problems wDbCat (some "math".toList) (some "extreme".toList) =
        get_problems wDbCat (some "math".toList) none ∧
      get_problems wDbCat (some "math".toList) (some "easy".toList) =
        (wDbCat.problems.filter
          (fun p => p.subject == Subject.math && p.difficulty == Difficulty.easy)).map
          (fun p => { id := p.id, title := p.title, description := p.description,
                      subject := p.subject, difficulty := p.difficulty,
                      points := p.points })) :=
  ⟨by decide, by decide, by decide, by decide,
    get_problems_lenient wDbCat "chemistry".toList "extreme".toList
      "math".toList "easy".toList Subject.math Difficulty.easy
      (some "math".toList) none (by decide) (by decide) (by decide) (by decide)⟩

/-! ### Claim theorems: stats aggregator -/

/-- Counting split: when every correct attempt of the user joins to an
existing problem, the math count and the informatics count partition the
overall correct count, because the subject enumeration has exactly those two
members. -/
theorem count_subject_split (db : DBState) (uid : Nat) (l : List SolutionRec)
    (hint : ∀ s ∈ l, s.user_id = uid → s.is_correct = true →
      (find_problem db s.problem_id).isSome = true) :
    (l.filter (fun s => s.user_id == uid && s.is_correct &&
        joinedSubject db s Subject.math)).length +
      (l.filter (fun s => s.user_id == uid && s.is_correct &&
        joinedSubject db s Subject.informatics)).length =
      (l.filter (fun s => s.user_id == uid && s.is_correct)).length := by
  induction l with
  | nil => rfl
  | cons a l ih =>
    have htail := ih (fun s hs h1 h2 => hint s (List.mem_cons_of_mem a hs) h1 h2)
    by_cases hb : (a.user_id == uid && a.is_correct) = true
    · obtain ⟨hb1, hb2⟩ := Bool.and_eq_true_iff.mp hb
      have hsome := hint a (List.mem_cons_self a l) (by simpa using hb1) hb2
      cases hfp : find_problem db a.problem_id with
      | none =>
        rw [hfp] at hsome
        cases hsome
      | some p =>
        have hjm : joinedSubject db a Subject.math = (p.subject == Subject.math) := by
          unfold joinedSubject
          rw [hfp]
        have hji : joinedSubject db a Subject.informatics =
            (p.subject == Subject.informatics) := by
          unfold joinedSubject
          rw [hfp]
        cases hps : p.subject with
        | math =>
          have cm : (a.user_id == uid && a.is_correct &&
              joinedSubject db a Subject.math) = true := by
            rw [hb, Bool.true_and, hjm, hps]
            rfl
          have ci : (a.user_id == uid && a.is_correct &&
              joinedSubject db a Subject.informatics) = false := by
            rw [hb, Bool.true_and, hji, hps]
            rfl
          simp only [List.filter_cons]
          rw [cm, ci, hb]
          simp only [eq_self_iff_true, if_true, Bool.false_eq_true, if_false,
            List.length_cons]
          omega
        | informatics =>
          have cm : (a.user_id == uid && a.is_correct &&
              joinedSubject db a Subject.math) = false := by
            rw [hb, Bool.true_and, hjm, hps]
            rfl
          have ci : (a.user_id == uid && a.is_correct &&
              joinedSubject db a Subject.informatics) = true := by
            rw [hb, Bool.true_and, hji, hps]
            rfl
          simp only [List.filter_cons]
          rw [cm, ci, hb]
          simp only [eq_self_iff_true, if_true, Bool.false_eq_true, if_false,
            List.length_cons]
          omega
    · have hbf : (a.user_id == uid && a.is_correct) = false :=
        Bool.eq_false_iff.mpr hb
      simp only [List.filter_cons]
      rw [hbf]
      simp only [Bool.false_and, Bool.false_eq_true, if_false]
      exact htail

/-- C6: for an existing user (and with every correct attempt referencing an
existing problem, as the schema's foreign keys and `check_solution`
guarantee), `get_user_stats` reports `solved_count` as the number of that
user's correct attempt rows — repeats included — `math_solved` and
`informatics_solved` as the same count restricted to the joined problem's
subject, their sum equal to `solved_count`, and zero (not null) for every
count when no rows match. -/
theorem get_user_stats_counts
    (db : DBState) (uid : Nat) (st : StatsResult)
    (h : get_user_stats db uid = some st)
    (hint : ∀ s ∈ db.solutions, s.user_id = uid → s.is_correct = true →
      (find_problem db s.problem_id).isSome = true) :
    st.solved_count = (db.solutions.filter
        (fun s => s.user_id == uid && s.is_correct)).length ∧
    st.math_solved = (db.solutions.filter
        (fun s => s.user_id == uid && s.is_correct &&
          joinedSubject db s Subject.math)).length ∧
    st.informatics_solved = (db.solutions.filter
        (fun s => s.user_id == uid && s.is_correct &&
          joinedSubject db s Subject.informatics)).length ∧
    st.math_solved + st.informatics_solved = st.solved_count ∧
    (db.solutions.filter (fun s => s.user_id == uid && s.is_correct) = [] →
      st.solved_count = 0 ∧ st.math_solved = 0 ∧ st.informatics_solved = 0) := by
  unfold get_user_stats at h
  cases hu : find_user db uid with
  | none =>
    rw [hu] at h
    cases h
  | some user =>
    rw [hu] at h
    injection h with h
    subst h
    refine ⟨orZero_eq _, orZero_eq _, orZero_eq _, ?_, ?_⟩
    · show orZero _ + orZero _ = orZero _
      rw [orZero_eq, orZero_eq, orZero_eq]
      exact count_subject_split db uid db.solutions hint
    · intro hemp
      have hbase := List.filter_eq_nil_iff.mp hemp
      have hm : db.solutions.filter (fun s => s.user_id == uid && s.is_correct &&
          joinedSubject db s Subject.math) = [] :=
        List.filter_eq_nil_iff.mpr (fun a ha hma =>
          hbase a ha (Bool.and_eq_true_iff.mp hma).1)
      have hi : db.solutions.filter (fun s => s.user_id == uid && s.is_correct &&
          joinedSubject db s Subject.informatics) = [] :=
        List.filter_eq_nil_iff.mpr (fun a ha hma =>
          hbase a ha (Bool.and_eq_true_iff.mp hma).1)
      refine ⟨?_, ?_, ?_⟩
      · show orZero _ = 0
        rw [hemp]
        rfl
      · show orZero _ = 0
        rw [hm]
        rfl
      · show orZero _ = 0
        rw [hi]
        rfl

/-- Witness for C6 over `wDbStats`: user 1 has three correct attempts (two
on the math problem, one on the informatics problem) and one incorrect. -/
theorem get_user_stats_counts_witness :
    get_user_stats wDbStats 1 =
      some { score := 99, level := 1, solved_count := 3,
             math_solved := 2, informatics_solved := 1 } ∧
    (∀ s ∈ wDbStats.solutions, s.user_id = 1 → s.is_correct = true →
      (find_problem wDbStats s.problem_id).isSome = true) ∧
    ((3 : Nat) = (wDbStats.solutions.filter
        (fun s => s.user_id == 1 && s.is_correct)).length ∧
      (2 : Nat) = (wDbStats.solutions.filter
        (fun s => s.user_id == 1 && s.is_correct &&
          joinedSubject wDbStats s Subject.math)).length ∧
      (1 : Nat) = (wDbStats.solutions.filter
        (fun s => s.user_id == 1 && s.is_correct &&
          joinedSubject wDbStats s Subject.informatics)).length ∧
      (2 : Nat) + 1 = 3 ∧
      (wDbStats.solutions.filter (fun s => s.user_id == 1 && s.is_correct) = [] →
        (3 : Nat) = 0 ∧ (2 : Nat) = 0 ∧ (1 : Nat) = 0)) :=
  ⟨by decide, by decide,
    get_user_stats_counts wDbStats 1
      { score := 99, level := 1, solved_count := 3,
        math_solved := 2, informatics_solved := 1 }
      (by decide) (by decide)⟩

end Miniapp
